import Mathlib

/-!
Energi-measurer: ESP32 web server firmware (`src/main.cpp`)

A shallow embedding of the active variant of `main.cpp` (lines 1-310; the rest of the
file is commented-out history) and theorems about it.

Modelling conventions
* `unsigned long` is 32 bits wide on the ESP32: `millis()` is the real time in ms
  reduced modulo `2^32`, and `a - b` on `unsigned long` is `sub32 a b`.
* Arduino `String` / `const char*` text is a Lean `String`; `==` is string equality.
* SPIFFS is a flat store (no directory entries) that may have failed to mount
  (`initSPIFFS` only reports a mount failure and carries on); every `open` on an
  unmounted store fails.
* Global variables are passed explicitly as state; calls into the WebSocket server,
  the WiFi driver and the ESP runtime are recorded as lists of effects.
  `Serial` diagnostics are not recorded.
* `int` is 32 bits wide on the ESP32: `counter++` is `wrapInt32 (counter + 1)`, which
  goes from 2147483647 to -2147483648.
-/

namespace EnergiMeasurer

/-! ## Constants of `main.cpp` -/

/-- Source constant `resetDelay` (ms). -/
def resetDelay : Nat := 10000

/-- Source constant `interval`, the Wi-Fi timeout (ms). -/
def interval : Nat := 10000

/-- Source constant `debounceTime` (ms). -/
def debounceTime : Nat := 500

/-- Source constant `PARAM_INPUT_1`. -/
def PARAM_INPUT_1 : String := "ssid"
/-- Source constant `PARAM_INPUT_2`. -/
def PARAM_INPUT_2 : String := "pass"
/-- Source constant `PARAM_INPUT_3`. -/
def PARAM_INPUT_3 : String := "ip"
/-- Source constant `PARAM_INPUT_4`. -/
def PARAM_INPUT_4 : String := "gateway"

/-- Source constant `ssidPath`. -/
def ssidPath : String := "/ssid.txt"
/-- Source constant `passPath`. -/
def passPath : String := "/pass.txt"
/-- Source constant `ipPath`. -/
def ipPath : String := "/ip.txt"
/-- Source constant `gatewayPath`. -/
def gatewayPath : String := "/gateway.txt"
/-- Source constant `logFilePath`. -/
def logFilePath : String := "/log.txt"

/-- Source constant `ledPin`. -/
def ledPin : Nat := 2

/-! ## 32-bit clock arithmetic -/

/-- What `millis()` returns at real time `realTime` (ms since boot): a 32-bit counter. -/
def millis (realTime : Nat) : Nat := realTime % 4294967296

/-- Subtraction of two `unsigned long` values, `a - b` modulo `2^32`. -/
def sub32 (a b : Nat) : Nat := (a + 4294967296 - b % 4294967296) % 4294967296

/-- The value a 32-bit `int` holds after an operation whose exact result is `x`: `x`
reduced modulo `2^32` into the range from -2147483648 to 2147483647. -/
def wrapInt32 (x : Int) : Int := (x + 2147483648) % 4294967296 - 2147483648

/-! ## Effects -/

/-- Calls into the surrounding runtime that the handlers make. -/
inductive Effect where
  /-- Call `client->text(msg)`: one text frame to one peer. -/
  | clientText (client : Nat) (msg : String)
  /-- Call `ws.textAll(msg)`: one text frame to every connected peer. -/
  | textAll (msg : String)
  /-- Call `ws.cleanupClients()`. -/
  | cleanupClients
  /-- Call `SPIFFS.format()`. -/
  | spiffsFormat
  /-- Call `ESP.restart()`. -/
  | espRestart
  /-- Call `request->send(SPIFFS, path, "text/html", false, processor)`. -/
  | sendTemplate (path : String)
  /-- Call `request->send(code, contentType, body)`. -/
  | sendText (code : Nat) (contentType body : String)
  /-- Call `delay(ms)`. -/
  | delay (ms : Nat)
  deriving DecidableEq, Repr

/-! ## The SPIFFS store -/

/-- State of the flash file store: whether it is mounted, so that files can be opened
(`initSPIFFS` reports a failed mount and carries on), and the content of each file. -/
structure FS where
  mounted : Bool
  files : String → Option String

/-- Whether `path` names a file that can be opened for reading: the store is mounted and
holds the file. -/
def FS.fileExists (fs : FS) (path : String) : Bool :=
  fs.mounted && (fs.files path).isSome

/-- Modelled from the spec: `SPIFFS.remove(path)`, the library call behind
`remove(path) -> bool`. It returns true exactly when the file existed and was deleted. -/
def SPIFFS_remove (fs : FS) (path : String) : Bool × FS :=
  if fs.fileExists path then
    (true, { fs with files := fun p => if p = path then none else fs.files p })
  else
    (false, fs)

/-- Modelled from the spec: `fs.open(path, FILE_WRITE)` followed by `file.print(message)`,
the library calls behind `write(path, content)` (full overwrite). The result is `none`
when the file cannot be opened. -/
def FS.openWriteAndPrint (fs : FS) (path message : String) : Option FS :=
  if fs.mounted then
    some { fs with files := fun p => if p = path then some message else fs.files p }
  else
    none

/-- Modelled from the spec: `SPIFFS.open(path, FILE_APPEND)` followed by
`file.println(data)`, the library calls behind `append(path, line)`; `println` ends the
line with CR LF. The result is `none` when the file cannot be opened. -/
def FS.openAppendAndPrintln (fs : FS) (path data : String) : Option FS :=
  if fs.mounted then
    some { fs with files := fun p =>
      if p = path then some ((fs.files path).getD "" ++ data ++ "\r\n") else fs.files p }
  else
    none

/-- Modelled from the spec: `file.readStringUntil(terminator)` on a freshly opened file
with the given content: the characters before the first terminator. -/
def readStringUntil (content : String) (terminator : Char) : String :=
  String.mk (content.data.takeWhile (fun c => c ≠ terminator))

/-- Source function `readFile` (lines 78-91). -/
def readFile (fs : FS) (path : String) : String :=
  if fs.mounted then
    match fs.files path with
    | none => ""                      -- `!file`: failed to open file for reading
    | some content =>
      if content.data.length > 0 then -- `file.available()`
        readStringUntil content '\n'
      else
        ""
  else
    ""

/-- Source function `writeFile` (lines 99-111). -/
def writeFile (fs : FS) (path message : String) : FS :=
  match fs.openWriteAndPrint path message with
  | none => fs                        -- `!file`: failed to open file for writing
  | some fs1 => fs1

/-- Source function `logData` (lines 117-127). -/
def logData (fs : FS) (data : String) : FS × List Effect :=
  match fs.openAppendAndPrintln logFilePath data with
  | some fs1 => (fs1, [Effect.textAll data])
  | none => (fs, [Effect.textAll data])

/-! ## WebSocket commands -/

/-- One operand of the `&&` chain in `onWebSocketMessage`: C++ evaluates the right
operand `SPIFFS.remove(path)` only when the left operand is true. -/
def andRemove (left : Bool × FS) (path : String) : Bool × FS :=
  if left.1 then SPIFFS_remove left.2 path else (false, left.2)

/-- Source function `onWebSocketMessage` (lines 197-209). -/
def onWebSocketMessage (fs : FS) (client : Nat) (message : String) : FS × List Effect :=
  if message = "clear_measurements" then
    let r := SPIFFS_remove fs logFilePath
    if r.1 then
      (r.2, [Effect.clientText client "Måleværdier slettet."])
    else
      (r.2, [Effect.clientText client "Kunne ikke slette måleværdier."])
  else if message = "clear_configuration" then
    let success :=
      andRemove (andRemove (andRemove (SPIFFS_remove fs ssidPath) passPath) ipPath) gatewayPath
    (success.2, [Effect.clientText client
      (if success.1 then "Konfiguration slettet." else "Kunne ikke slette konfiguration.")])
  else
    (fs, [])

/-! ## Station connection -/

/-- Calls that `initWiFi` makes into the WiFi driver and the clock, in order. -/
inductive WiFiCall where
  /-- Call `WiFi.mode(WIFI_STA)`. -/
  | modeSTA
  /-- Call `WiFi.begin(ssid, pass)`. -/
  | wifiBegin (ssid pass : String)
  /-- Call `millis()`. -/
  | readClock
  /-- Call `WiFi.status()`. -/
  | status
  /-- Call `WiFi.localIP()`. -/
  | localIP
  deriving DecidableEq, Repr

/-- Modelled from the spec: the WiFi library's status code `WL_CONNECTED` of
`wl_status_t`, the value with which the link reports "connected". -/
def WL_CONNECTED : Nat := 3

/-- One iteration of the polling loop as the environment answers it: the value
`WiFi.status()` returns, then the real time at which `millis()` is read. -/
structure Poll where
  status : Nat
  time : Nat
  deriving DecidableEq, Repr

/-- What `initWiFi` leaves behind: its return value (`none` while the loop is still
polling after the last given sample), the calls it made, and the global
`previousMillis`. -/
structure InitWiFiResult where
  ret : Option Bool
  calls : List WiFiCall
  previousMillis : Nat
  deriving DecidableEq, Repr

/-- The expression `currentMillis - previousMillis` of the polling loop, for a start
at real time `startTime` and a poll at real time `p.time`. -/
def elapsed (startTime : Nat) (p : Poll) : Nat :=
  sub32 (millis p.time) (millis startTime)

/-- The loop `while(WiFi.status() != WL_CONNECTED)` of `initWiFi` (lines 165-171). -/
def pollLoop (previousMillis : Nat) : List Poll → Option Bool × List WiFiCall
  | [] => (none, [])
  | p :: rest =>
    if p.status = WL_CONNECTED then
      (some true, [WiFiCall.status])
    else
      let currentMillis := millis p.time
      if sub32 currentMillis previousMillis ≥ interval then
        (some false, [WiFiCall.status, WiFiCall.readClock])
      else
        let r := pollLoop previousMillis rest
        (r.1, WiFiCall.status :: WiFiCall.readClock :: r.2)

/-- Source function `initWiFi` (lines 153-177). The globals `ssid`, `pass`, `ip` and
`previousMillis` are arguments; `startTime` is the real time of the first `millis()`
and `polls` are the answers of the environment to the loop. -/
def initWiFi (ssid pass ip : String) (previousMillis startTime : Nat) (polls : List Poll) :
    InitWiFiResult :=
  if ssid = "" ∨ ip = "" then
    { ret := some false, calls := [], previousMillis := previousMillis }
  else
    let currentMillis := millis startTime
    let r := pollLoop currentMillis polls
    { ret := r.1
      calls := [WiFiCall.modeSTA, WiFiCall.wifiBegin ssid pass, WiFiCall.readClock] ++ r.2 ++
        (if r.1 = some true then [WiFiCall.localIP] else [])
      previousMillis := currentMillis }

/-! ## Provisioning form -/

/-- The globals `ssid`, `pass`, `ip`, `gateway`. -/
structure Profile where
  ssid : String
  pass : String
  ip : String
  gateway : String
  deriving DecidableEq, Repr

/-- One request parameter (`AsyncWebParameter`): `name()`, `value()`, `isPost()`. -/
structure AsyncWebParameter where
  name : String
  value : String
  isPost : Bool
  deriving DecidableEq, Repr

/-- Body of the `for` loop of the `POST "/"` handler (lines 265-283). -/
def postParam (st : Profile × FS) (p : AsyncWebParameter) : Profile × FS :=
  if p.isPost then
    let st1 : Profile × FS :=
      if p.name = PARAM_INPUT_1 then
        ({ st.1 with ssid := p.value }, writeFile st.2 ssidPath p.value)
      else st
    let st2 : Profile × FS :=
      if p.name = PARAM_INPUT_2 then
        ({ st1.1 with pass := p.value }, writeFile st1.2 passPath p.value)
      else st1
    let st3 : Profile × FS :=
      if p.name = PARAM_INPUT_3 then
        ({ st2.1 with ip := p.value }, writeFile st2.2 ipPath p.value)
      else st2
    if p.name = PARAM_INPUT_4 then
      ({ st3.1 with gateway := p.value }, writeFile st3.2 gatewayPath p.value)
    else st3
  else
    st

/-- The `POST "/"` handler of provisioning mode (lines 262-288). -/
def postHandler (st : Profile × FS) (params : List AsyncWebParameter) :
    (Profile × FS) × List Effect :=
  (params.foldl postParam st,
    [Effect.sendText 200 "text/plain" "Done. ESP will restart.", Effect.delay 3000,
      Effect.espRestart])

/-- The four form fields with their storage slots. -/
def configSlots : List (String × String) :=
  [(PARAM_INPUT_1, ssidPath), (PARAM_INPUT_2, passPath), (PARAM_INPUT_3, ipPath),
    (PARAM_INPUT_4, gatewayPath)]

/-- Whether `p` is a POST parameter with the given name. -/
def isPostNamed (name : String) (p : AsyncWebParameter) : Bool :=
  p.isPost && decide (p.name = name)

/-! ## Operational mode: `/on` and `/off` -/

/-- Output levels of the digital pins together with the store. -/
structure Device where
  pins : Nat → Bool
  fs : FS

/-- Modelled from the spec: `digitalWrite(pin, level)` sets the level of one output pin. -/
def digitalWrite (d : Device) (pin : Nat) (level : Bool) : Device :=
  { d with pins := fun q => if q = pin then level else d.pins q }

/-- The `GET /on` handler (lines 235-239). -/
def onHandler (d : Device) : Device × List Effect :=
  let d1 := digitalWrite d ledPin true
  let r := logData d1.fs "LED ON"
  ({ d1 with fs := r.1 }, r.2 ++ [Effect.sendTemplate "/index.html"])

/-- The `GET /off` handler (lines 241-245). -/
def offHandler (d : Device) : Device × List Effect :=
  let d1 := digitalWrite d ledPin false
  let r := logData d1.fs "LED OFF"
  ({ d1 with fs := r.1 }, r.2 ++ [Effect.sendTemplate "/index.html"])

/-! ## The main loop: touch counter and reset button -/

/-- The globals `buttonPressTime`, `counter`, `lastTouchTime`. -/
structure LoopState where
  buttonPressTime : Nat
  counter : Int
  lastTouchTime : Nat
  deriving DecidableEq, Repr

/-- Values of the globals after boot. -/
def LoopState.boot : LoopState :=
  { buttonPressTime := 0, counter := 0, lastTouchTime := 0 }

/-- What the environment presents during one iteration of `loop`: the real time (ms)
at which the iteration runs, so that each `millis()` in it returns `millis time`;
whether `digitalRead(resetPin) == LOW`; and the value of `touchRead(touchPin)`. -/
structure Tick where
  time : Nat
  resetLow : Bool
  touch : Nat
  deriving DecidableEq, Repr

/-- Source function `sendCounter` (lines 132-135). -/
def sendCounter (counter : Int) : List Effect :=
  [Effect.textAll ("counter:" ++ toString counter)]

/-- The condition under which `handleTouch` accepts a touch (line 142). -/
def touchAccepts (st : LoopState) (tk : Tick) : Bool :=
  decide (tk.touch < 40 ∧ sub32 (millis tk.time) st.lastTouchTime > debounceTime)

/-- Source function `handleTouch` (lines 140-147). -/
def handleTouch (st : LoopState) (tk : Tick) : LoopState × List Effect :=
  let now := millis tk.time
  if tk.touch < 40 ∧ sub32 now st.lastTouchTime > debounceTime then
    let counter := wrapInt32 (st.counter + 1)   -- `counter++` on a 32-bit `int`
    ({ st with counter := counter, lastTouchTime := now }, sendCounter counter)
  else
    (st, [])

/-- Successive calls of `handleTouch`, one per tick. -/
def runTouch (st : LoopState) : List Tick → LoopState
  | [] => st
  | tk :: rest => runTouch (handleTouch st tk).1 rest

/-- Source function `loop` (lines 296-310). The result state is `none` when the
iteration ended in `ESP.restart()`, which does not return. -/
def loop (st : LoopState) (tk : Tick) : Option LoopState × List Effect :=
  if tk.resetLow then
    let pressTime := if st.buttonPressTime = 0 then millis tk.time else st.buttonPressTime
    if sub32 (millis tk.time) pressTime > resetDelay then
      (none, [Effect.spiffsFormat, Effect.espRestart])
    else
      let r := handleTouch { st with buttonPressTime := pressTime } tk
      (some r.1, r.2 ++ [Effect.cleanupClients])
  else
    let r := handleTouch { st with buttonPressTime := 0 } tk
    (some r.1, r.2 ++ [Effect.cleanupClients])

/-- Successive iterations of `loop`, one per tick, until a restart or the end of the
given ticks. -/
def runLoop (st : LoopState) : List Tick → Option LoopState × List Effect
  | [] => (some st, [])
  | tk :: rest =>
    match loop st tk with
    | (none, fx) => (none, fx)
    | (some st1, fx) => ((runLoop st1 rest).1, fx ++ (runLoop st1 rest).2)

/-! ## Stores used in examples -/

/-- A mounted store holding exactly the listed files. -/
def FS.ofList (entries : List (String × String)) : FS :=
  { mounted := true, files := fun p => entries.lookup p }

/-- A store that failed to mount. -/
def FS.unmounted : FS :=
  { mounted := false, files := fun _ => none }

/-! ## C1: `clear_configuration` with one config file missing -/

/-- C1. With exactly three of the four config files present, `clear_configuration`
always answers the sender with the failure text, but the `&&` chain stops at the first
missing file: only the files that come before the missing one (in the order ssid, pass,
ip, gateway) are deleted, the present files after it are kept. All three present files
are deleted only when the missing one is `/gateway.txt`. -/
theorem clear_configuration_three_present (fs : FS) (client : Nat)
    (h3 : [ssidPath, passPath, ipPath, gatewayPath].countP fs.fileExists = 3) :
    (onWebSocketMessage fs client "clear_configuration").2
        = [Effect.clientText client "Kunne ikke slette konfiguration."] ∧
    (fs.fileExists ssidPath = false →
      (onWebSocketMessage fs client "clear_configuration").1.fileExists passPath = true ∧
      (onWebSocketMessage fs client "clear_configuration").1.fileExists ipPath = true ∧
      (onWebSocketMessage fs client "clear_configuration").1.fileExists gatewayPath = true) ∧
    (fs.fileExists passPath = false →
      (onWebSocketMessage fs client "clear_configuration").1.fileExists ssidPath = false ∧
      (onWebSocketMessage fs client "clear_configuration").1.fileExists ipPath = true ∧
      (onWebSocketMessage fs client "clear_configuration").1.fileExists gatewayPath = true) ∧
    (fs.fileExists ipPath = false →
      (onWebSocketMessage fs client "clear_configuration").1.fileExists ssidPath = false ∧
      (onWebSocketMessage fs client "clear_configuration").1.fileExists passPath = false ∧
      (onWebSocketMessage fs client "clear_configuration").1.fileExists gatewayPath = true) ∧
    (fs.fileExists gatewayPath = false →
      (onWebSocketMessage fs client "clear_configuration").1.fileExists ssidPath = false ∧
      (onWebSocketMessage fs client "clear_configuration").1.fileExists passPath = false ∧
      (onWebSocketMessage fs client "clear_configuration").1.fileExists ipPath = false) := by
  obtain ⟨m, f⟩ := fs
  cases m
  · simp [FS.fileExists, List.countP_cons] at h3
  · rcases h1 : f "/ssid.txt" with _ | a <;> rcases h2 : f "/pass.txt" with _ | b <;>
      rcases h4 : f "/ip.txt" with _ | c <;> rcases h5 : f "/gateway.txt" with _ | d <;>
      simp [FS.fileExists, List.countP_cons, ssidPath, passPath, ipPath, gatewayPath, h1, h2, h4,
        h5] at h3 <;>
      simp [onWebSocketMessage, andRemove, SPIFFS_remove, FS.fileExists, ssidPath, passPath,
        ipPath, gatewayPath, h1, h2, h4, h5]

/-- Witness for C1. First the store holds `/pass.txt`, `/ip.txt` and `/gateway.txt` but not
`/ssid.txt`: nothing is deleted. Then the store of a device in operational mode on an open
network, holding `/ssid.txt`, `/ip.txt` and `/gateway.txt` but not `/pass.txt`: only
`/ssid.txt` is deleted, `/ip.txt` and `/gateway.txt` are kept, and the failure text is
sent. -/
theorem clear_configuration_three_present_witness :
    [ssidPath, passPath, ipPath, gatewayPath].countP
        (FS.ofList [("/pass.txt", "p"), ("/ip.txt", "i"), ("/gateway.txt", "g")]).fileExists = 3 ∧
    (onWebSocketMessage (FS.ofList [("/pass.txt", "p"), ("/ip.txt", "i"), ("/gateway.txt", "g")])
        7 "clear_configuration").2
      = [Effect.clientText 7 "Kunne ikke slette konfiguration."] ∧
    (onWebSocketMessage (FS.ofList [("/pass.txt", "p"), ("/ip.txt", "i"), ("/gateway.txt", "g")])
        7 "clear_configuration").1.fileExists passPath = true ∧
    [ssidPath, passPath, ipPath, gatewayPath].countP
        (FS.ofList [("/ssid.txt", "Home"), ("/ip.txt", "192.168.1.50"),
          ("/gateway.txt", "192.168.1.1")]).fileExists = 3 ∧
    (onWebSocketMessage (FS.ofList [("/ssid.txt", "Home"), ("/ip.txt", "192.168.1.50"),
        ("/gateway.txt", "192.168.1.1")]) 7 "clear_configuration").2
      = [Effect.clientText 7 "Kunne ikke slette konfiguration."] ∧
    ((onWebSocketMessage (FS.ofList [("/ssid.txt", "Home"), ("/ip.txt", "192.168.1.50"),
        ("/gateway.txt", "192.168.1.1")]) 7 "clear_configuration").1.fileExists ssidPath = false ∧
      (onWebSocketMessage (FS.ofList [("/ssid.txt", "Home"), ("/ip.txt", "192.168.1.50"),
        ("/gateway.txt", "192.168.1.1")]) 7 "clear_configuration").1.fileExists ipPath = true ∧
      (onWebSocketMessage (FS.ofList [("/ssid.txt", "Home"), ("/ip.txt", "192.168.1.50"),
        ("/gateway.txt", "192.168.1.1")]) 7 "clear_configuration").1.fileExists gatewayPath
          = true) :=
  ⟨by decide,
   (clear_configuration_three_present _ 7 (by decide)).1,
   ((clear_configuration_three_present _ 7 (by decide)).2.1 (by decide)).1,
   by decide,
   (clear_configuration_three_present _ 7 (by decide)).1,
   (clear_configuration_three_present _ 7 (by decide)).2.2.1 (by decide)⟩

/-! ## C2, C3: `initWiFi` -/

theorem sub32_millis_shift (t t0 c : Nat) :
    sub32 (millis (t + c)) (millis (t0 + c)) = sub32 (millis t) (millis t0) := by
  unfold sub32 millis
  omega

theorem pollLoop_true_iff (pm : Nat) (polls : List Poll) :
    (pollLoop pm polls).1 = some true ↔
      ∃ (k : Nat) (p : Poll), polls[k]? = some p ∧ p.status = WL_CONNECTED ∧
        ∀ (j : Nat) (q : Poll), j < k → polls[j]? = some q → sub32 (millis q.time) pm < interval := by
  induction polls with
  | nil => simp [pollLoop]
  | cons a rest ih =>
    by_cases hc : a.status = WL_CONNECTED
    · simp only [pollLoop, hc, if_true, true_iff]
      exact ⟨0, a, by simp, hc, by intro j q hj; omega⟩
    · by_cases ht : sub32 (millis a.time) pm ≥ interval
      · simp only [pollLoop, hc, if_false, ht, if_true]
        constructor
        · intro h; simp at h
        · rintro ⟨k, p, hk, hp, hall⟩
          cases k with
          | zero => simp at hk; subst hk; exact absurd hp hc
          | succ k =>
            have := hall 0 a (by omega) (by simp)
            omega
      · simp only [pollLoop, hc, if_false, ht]
        rw [ih]
        constructor
        · rintro ⟨k, p, hk, hp, hall⟩
          refine ⟨k + 1, p, by simpa using hk, hp, ?_⟩
          intro j q hj hq
          cases j with
          | zero => simp at hq; subst hq; omega
          | succ j => exact hall j q (by omega) (by simpa using hq)
        · rintro ⟨k, p, hk, hp, hall⟩
          cases k with
          | zero => simp at hk; subst hk; exact absurd hp hc
          | succ k =>
            refine ⟨k, p, by simpa using hk, hp, ?_⟩
            intro j q hj hq
            exact hall (j + 1) q (by omega) (by simpa using hq)

theorem pollLoop_false_at (pm : Nat) (polls : List Poll) (k : Nat) (p : Poll)
    (hk : polls[k]? = some p) (hp : p.status ≠ WL_CONNECTED)
    (ht : interval ≤ sub32 (millis p.time) pm)
    (hfirst : ∀ (j : Nat) (q : Poll), j < k → polls[j]? = some q →
      ¬ (q.status ≠ WL_CONNECTED ∧ interval ≤ sub32 (millis q.time) pm))
    (hnot : (pollLoop pm polls).1 ≠ some true) :
    (pollLoop pm polls).1 = some false ∧
      (pollLoop pm polls).2.count WiFiCall.status = k + 1 := by
  induction polls generalizing k with
  | nil => simp at hk
  | cons a rest ih =>
    by_cases hc : a.status = WL_CONNECTED
    · simp [pollLoop, hc] at hnot
    · by_cases hta : sub32 (millis a.time) pm ≥ interval
      · cases k with
        | zero => simp [pollLoop, hc, hta]
        | succ k => exact absurd ⟨hc, hta⟩ (hfirst 0 a (by omega) (by simp))
      · cases k with
        | zero =>
          simp at hk; subst hk
          exact absurd ht hta
        | succ k =>
          simp only [pollLoop, hc, if_false, hta] at hnot ⊢
          have := ih k (by simpa using hk)
            (fun j q hj hq => hfirst (j + 1) q (by omega) (by simpa using hq)) hnot
          simp [this.1, this.2]

theorem pollLoop_false_imp (pm : Nat) (polls : List Poll)
    (h : (pollLoop pm polls).1 = some false) :
    ∃ (k : Nat) (p : Poll), polls[k]? = some p ∧ p.status ≠ WL_CONNECTED ∧
      interval ≤ sub32 (millis p.time) pm ∧
      ∀ (j : Nat) (q : Poll), j < k → polls[j]? = some q →
        q.status ≠ WL_CONNECTED ∧ sub32 (millis q.time) pm < interval := by
  induction polls with
  | nil => simp [pollLoop] at h
  | cons a rest ih =>
    by_cases hc : a.status = WL_CONNECTED
    · simp [pollLoop, hc] at h
    · by_cases ht : sub32 (millis a.time) pm ≥ interval
      · exact ⟨0, a, by simp, hc, ht, by intro j q hj; omega⟩
      · simp only [pollLoop, hc, if_false, ht] at h
        obtain ⟨k, p, hk, hp, hpt, hall⟩ := ih h
        refine ⟨k + 1, p, by simpa using hk, hp, hpt, ?_⟩
        intro j q hj hq
        cases j with
        | zero => simp at hq; subst hq; exact ⟨hc, by omega⟩
        | succ j => exact hall j q (by omega) (by simpa using hq)

theorem pollLoop_shift (t0 c : Nat) (polls : List Poll) :
    (pollLoop (millis (t0 + c)) (polls.map (fun p => { p with time := p.time + c }))).1
      = (pollLoop (millis t0) polls).1 := by
  induction polls with
  | nil => simp [pollLoop]
  | cons a rest ih =>
    simp only [List.map_cons, pollLoop, sub32_millis_shift]
    split_ifs <;> simp [ih]

/-- C2. With non-empty `ssid` and `ip`, for every start time and every sequence of poll
samples (status, then real time of the clock reading, seen modulo `2^32`): `initWiFi`
returns true iff some poll reports connected and every earlier poll had
`(t_j - t0) mod 2^32 < 10000`; when it does not return true, it returns false at the first
poll that is not connected and has `(t - t0) mod 2^32 >= 10000`, making no further poll;
it returns false only in this way; and the result is the same when all clock readings are
moved by any offset, so also when the 32-bit clock wraps between the start and a poll. -/
theorem initWiFi_timeout (ssid pass ip : String) (pm t0 : Nat) (polls : List Poll)
    (hs : ssid ≠ "") (hi : ip ≠ "") :
    ((initWiFi ssid pass ip pm t0 polls).ret = some true ↔
      ∃ (k : Nat) (p : Poll), polls[k]? = some p ∧ p.status = WL_CONNECTED ∧
        ∀ (j : Nat) (q : Poll), j < k → polls[j]? = some q → elapsed t0 q < 10000) ∧
    (∀ (k : Nat) (p : Poll), polls[k]? = some p → p.status ≠ WL_CONNECTED → 10000 ≤ elapsed t0 p →
      (∀ (j : Nat) (q : Poll), j < k → polls[j]? = some q →
        ¬ (q.status ≠ WL_CONNECTED ∧ 10000 ≤ elapsed t0 q)) →
      (initWiFi ssid pass ip pm t0 polls).ret ≠ some true →
      (initWiFi ssid pass ip pm t0 polls).ret = some false ∧
      (initWiFi ssid pass ip pm t0 polls).calls.count WiFiCall.status = k + 1) ∧
    ((initWiFi ssid pass ip pm t0 polls).ret = some false →
      ∃ (k : Nat) (p : Poll), polls[k]? = some p ∧ p.status ≠ WL_CONNECTED ∧ 10000 ≤ elapsed t0 p ∧
        ∀ (j : Nat) (q : Poll), j < k → polls[j]? = some q →
          q.status ≠ WL_CONNECTED ∧ elapsed t0 q < 10000) ∧
    (∀ c, (initWiFi ssid pass ip pm (t0 + c)
        (polls.map (fun p => { p with time := p.time + c }))).ret
      = (initWiFi ssid pass ip pm t0 polls).ret) := by
  have hcond : ¬ (ssid = "" ∨ ip = "") := by simp [hs, hi]
  refine ⟨?_, ?_, ?_, ?_⟩
  · simp only [initWiFi, hcond, if_false]
    exact pollLoop_true_iff (millis t0) polls
  · intro k p hk hp ht hfirst hnot
    simp only [initWiFi, hcond, if_false] at hnot ⊢
    have := pollLoop_false_at (millis t0) polls k p hk hp ht hfirst hnot
    refine ⟨this.1, ?_⟩
    simp [this.1, this.2, List.count_cons]
  · intro h
    simp only [initWiFi, hcond, if_false] at h
    exact pollLoop_false_imp (millis t0) polls h
  · intro c
    simp only [initWiFi, hcond, if_false]
    exact pollLoop_shift t0 c polls

/-- Witness for C2: the clock starts 5 ms before it wraps; the link is down at the first
two polls (3 ms and 9 ms after the start, the second after the wrap) and connected at the
third. -/
theorem initWiFi_timeout_witness :
    (initWiFi "Home" "secret" "192.168.1.50" 0 4294967291
        [⟨6, 4294967294⟩, ⟨6, 4294967300⟩, ⟨3, 4294967301⟩]).ret = some true :=
  (initWiFi_timeout "Home" "secret" "192.168.1.50" 0 4294967291
      [⟨6, 4294967294⟩, ⟨6, 4294967300⟩, ⟨3, 4294967301⟩] (by decide) (by decide)).1.mpr
    ⟨2, ⟨3, 4294967301⟩, by decide, by decide, by
      intro j q hj hq
      have hj2 : j = 0 ∨ j = 1 := by omega
      rcases hj2 with rfl | rfl
      · simp at hq; subst hq; decide
      · simp at hq; subst hq; decide⟩

/-- C3. With an empty `ssid` or an empty `ip`, whatever `pass` is, `initWiFi` returns
false and makes no call at all: no `WiFi.mode`, no `WiFi.begin`, no `millis()`, no
`WiFi.status()`; `previousMillis` is left as it was. -/
theorem initWiFi_empty_profile (ssid pass ip : String) (pm t0 : Nat) (polls : List Poll)
    (h : ssid = "" ∨ ip = "") :
    initWiFi ssid pass ip pm t0 polls =
      { ret := some false, calls := [], previousMillis := pm } := by
  simp [initWiFi, h]

/-- Witness for C3: an empty address with a reachable network. -/
theorem initWiFi_empty_profile_witness :
    initWiFi "Home" "secret" "" 17 100 [⟨3, 101⟩] =
      { ret := some false, calls := [], previousMillis := 17 } :=
  initWiFi_empty_profile "Home" "secret" "" 17 100 [⟨3, 101⟩] (Or.inr rfl)

/-! ## C4: the provisioning form -/

theorem writeFile_mounted (fs : FS) (path message : String) :
    (writeFile fs path message).mounted = fs.mounted := by
  unfold writeFile FS.openWriteAndPrint
  cases h : fs.mounted <;> simp [h]

theorem writeFile_files (fs : FS) (path message q : String) (hm : fs.mounted = true) :
    (writeFile fs path message).files q = if q = path then some message else fs.files q := by
  simp [writeFile, FS.openWriteAndPrint, hm]

theorem writeFile_files_ne (fs : FS) (path message q : String) (hq : q ≠ path) :
    (writeFile fs path message).files q = fs.files q := by
  unfold writeFile FS.openWriteAndPrint
  cases h : fs.mounted <;> simp [h, hq]

theorem postParam_mounted (st : Profile × FS) (p : AsyncWebParameter) :
    (postParam st p).2.mounted = st.2.mounted := by
  unfold postParam
  split_ifs <;> simp [writeFile_mounted]

theorem postParam_files_other (st : Profile × FS) (p : AsyncWebParameter) (name path : String)
    (hslot : (name, path) ∈ configSlots) (hp : isPostNamed name p = false) :
    (postParam st p).2.files path = st.2.files path := by
  simp only [configSlots, List.mem_cons, Prod.mk.injEq, List.mem_singleton, List.not_mem_nil,
    or_false] at hslot
  unfold postParam
  rcases hslot with ⟨rfl, rfl⟩ | ⟨rfl, rfl⟩ | ⟨rfl, rfl⟩ | ⟨rfl, rfl⟩ <;>
    simp only [isPostNamed, Bool.and_eq_false_imp, decide_eq_false_iff_not] at hp <;>
    split_ifs <;>
    simp_all [writeFile_files_ne, PARAM_INPUT_1, PARAM_INPUT_2, PARAM_INPUT_3, PARAM_INPUT_4,
      ssidPath, passPath, ipPath, gatewayPath]

theorem postParam_files_named (st : Profile × FS) (p : AsyncWebParameter) (name path : String)
    (hslot : (name, path) ∈ configSlots) (hp : isPostNamed name p = true)
    (hm : st.2.mounted = true) :
    (postParam st p).2.files path = some p.value := by
  simp only [configSlots, List.mem_cons, Prod.mk.injEq, List.mem_singleton, List.not_mem_nil,
    or_false] at hslot
  simp only [isPostNamed, Bool.and_eq_true, decide_eq_true_eq] at hp
  obtain ⟨hpost, hname⟩ := hp
  unfold postParam
  rcases hslot with ⟨rfl, rfl⟩ | ⟨rfl, rfl⟩ | ⟨rfl, rfl⟩ | ⟨rfl, rfl⟩ <;>
    simp [hpost, hname, writeFile_files, writeFile_mounted, hm, PARAM_INPUT_1, PARAM_INPUT_2,
      PARAM_INPUT_3, PARAM_INPUT_4, ssidPath, passPath, ipPath, gatewayPath]

theorem foldl_postParam_mounted (params : List AsyncWebParameter) (st : Profile × FS) :
    (params.foldl postParam st).2.mounted = st.2.mounted := by
  induction params generalizing st with
  | nil => rfl
  | cons a rest ih => simp [List.foldl_cons, ih, postParam_mounted]

theorem foldl_postParam_files_other (params : List AsyncWebParameter) (st : Profile × FS)
    (name path : String) (hslot : (name, path) ∈ configSlots)
    (hall : ∀ q ∈ params, isPostNamed name q = false) :
    (params.foldl postParam st).2.files path = st.2.files path := by
  induction params generalizing st with
  | nil => rfl
  | cons a rest ih =>
    simp only [List.foldl_cons]
    rw [ih _ (fun q hq => hall q (List.mem_cons_of_mem _ hq)),
      postParam_files_other st a name path hslot (hall a (List.mem_cons_self _ _))]

theorem foldl_postParam_files_outside (params : List AsyncWebParameter) (st : Profile × FS)
    (path : String) (h1 : path ≠ ssidPath) (h2 : path ≠ passPath) (h3 : path ≠ ipPath)
    (h4 : path ≠ gatewayPath) :
    (params.foldl postParam st).2.files path = st.2.files path := by
  induction params generalizing st with
  | nil => rfl
  | cons a rest ih =>
    simp only [List.foldl_cons]
    rw [ih]
    unfold postParam
    split_ifs <;> simp [writeFile_files_ne, h1, h2, h3, h4]

theorem writeFile_unmounted (fs : FS) (path message : String) (hm : fs.mounted = false) :
    writeFile fs path message = fs := by
  simp [writeFile, FS.openWriteAndPrint, hm]

theorem postParam_unmounted (st : Profile × FS) (p : AsyncWebParameter)
    (hm : st.2.mounted = false) : (postParam st p).2 = st.2 := by
  unfold postParam
  split_ifs <;> simp [writeFile_unmounted, hm]

theorem foldl_postParam_unmounted (params : List AsyncWebParameter) (st : Profile × FS)
    (hm : st.2.mounted = false) : (params.foldl postParam st).2 = st.2 := by
  induction params generalizing st with
  | nil => rfl
  | cons a rest ih =>
    simp only [List.foldl_cons]
    rw [ih (postParam st a) (by rw [postParam_mounted]; exact hm), postParam_unmounted st a hm]

/-- C4 as stated fails on a store that did not mount. Booting on such a store reads an
empty profile, so `initWiFi` returns false and `setup` opens the provisioning portal; there
`writeFile` cannot open the slot, and after a submission of `ssid=X` the slot `/ssid.txt`
does not hold `X`. -/
theorem postHandler_unmounted_counterexample :
    (initWiFi (readFile FS.unmounted ssidPath) (readFile FS.unmounted passPath)
        (readFile FS.unmounted ipPath) 0 100 [⟨3, 101⟩]).ret = some false ∧
    (postHandler (⟨"", "", "", ""⟩, FS.unmounted) [⟨"ssid", "X", true⟩]).1.2.files ssidPath
        = none ∧
    readFile (postHandler (⟨"", "", "", ""⟩, FS.unmounted) [⟨"ssid", "X", true⟩]).1.2 ssidPath
        = "" := by
  decide

/-- C4, amended. For every prior store and every submission. On a mounted store, after the
`POST "/"` handler each of the four slots holds the value of the last POST parameter with
the slot's field name, stored as it is (an empty value included), when the submission has
one, and its prior content otherwise; the store stays mounted. On a store that failed to
mount `writeFile` cannot open any slot and the handler leaves the whole store as it was.
In both cases every file other than the four slots is unchanged. -/
theorem postHandler_field_update (g : Profile) (fs : FS) (params : List AsyncWebParameter) :
    (fs.mounted = true →
      (∀ (name path : String), (name, path) ∈ configSlots →
        (∀ (before : List AsyncWebParameter) (p : AsyncWebParameter)
            (after : List AsyncWebParameter),
          params = before ++ p :: after → isPostNamed name p = true →
          (∀ q ∈ after, isPostNamed name q = false) →
          (postHandler (g, fs) params).1.2.files path = some p.value) ∧
        ((∀ q ∈ params, isPostNamed name q = false) →
          (postHandler (g, fs) params).1.2.files path = fs.files path)) ∧
      (postHandler (g, fs) params).1.2.mounted = true) ∧
    (fs.mounted = false →
      (postHandler (g, fs) params).1.2 = fs ∧
      (∀ (name path : String), (name, path) ∈ configSlots →
        (postHandler (g, fs) params).1.2.files path = fs.files path)) ∧
    (∀ (path : String), path ∉ [ssidPath, passPath, ipPath, gatewayPath] →
      (postHandler (g, fs) params).1.2.files path = fs.files path) := by
  refine ⟨?_, ?_, ?_⟩
  · intro hm
    refine ⟨?_, ?_⟩
    · intro name path hslot
      constructor
      · intro before p after hsplit hp hafter
        subst hsplit
        simp only [postHandler, List.foldl_append, List.foldl_cons]
        rw [foldl_postParam_files_other after _ name path hslot hafter]
        apply postParam_files_named _ p name path hslot hp
        rw [foldl_postParam_mounted]
        exact hm
      · intro hall
        exact foldl_postParam_files_other params (g, fs) name path hslot hall
    · simp only [postHandler]
      rw [foldl_postParam_mounted]
      exact hm
  · intro hm
    have hstore : (postHandler (g, fs) params).1.2 = fs :=
      foldl_postParam_unmounted params (g, fs) hm
    exact ⟨hstore, fun _ path _ => by rw [hstore]⟩
  · intro path hpath
    simp only [List.mem_cons, List.mem_singleton, List.not_mem_nil, or_false, not_or] at hpath
    obtain ⟨h1, h2, h3, h4⟩ := hpath
    exact foldl_postParam_files_outside params (g, fs) path h1 h2 h3 h4

/-- Witness for C4: only `ssid=X` is submitted to a mounted store that holds all four
slots; and all four fields are submitted to a store that failed to mount. -/
theorem postHandler_field_update_witness :
    (postHandler (⟨"a", "b", "c", "d"⟩,
        FS.ofList [("/ssid.txt", "a"), ("/pass.txt", "b"), ("/ip.txt", "c"),
          ("/gateway.txt", "d")]) [⟨"ssid", "X", true⟩]).1.2.files ssidPath = some "X" ∧
    (postHandler (⟨"a", "b", "c", "d"⟩,
        FS.ofList [("/ssid.txt", "a"), ("/pass.txt", "b"), ("/ip.txt", "c"),
          ("/gateway.txt", "d")]) [⟨"ssid", "X", true⟩]).1.2.files passPath = some "b" ∧
    (postHandler (⟨"", "", "", ""⟩, FS.unmounted)
        [⟨"ssid", "Home", true⟩, ⟨"pass", "secret", true⟩, ⟨"ip", "192.168.1.50", true⟩,
          ⟨"gateway", "192.168.1.1", true⟩]).1.2 = FS.unmounted :=
  ⟨(((postHandler_field_update ⟨"a", "b", "c", "d"⟩ _ [⟨"ssid", "X", true⟩]).1 rfl).1
      "ssid" "/ssid.txt" (by decide)).1 [] ⟨"ssid", "X", true⟩ [] rfl (by decide)
      (by simp),
   (((postHandler_field_update ⟨"a", "b", "c", "d"⟩ _ [⟨"ssid", "X", true⟩]).1 rfl).1
      "pass" "/pass.txt" (by decide)).2 (by decide),
   ((postHandler_field_update ⟨"", "", "", ""⟩ FS.unmounted
      [⟨"ssid", "Home", true⟩, ⟨"pass", "secret", true⟩, ⟨"ip", "192.168.1.50", true⟩,
        ⟨"gateway", "192.168.1.1", true⟩]).2.1 rfl).1⟩

/-! ## C5: the touch debounce -/

theorem sub32_millis_le (t T d : Nat) (hle : T ≤ t) (hd : t ≤ T + d) (hsmall : d < 4294967296) :
    sub32 (millis t) (millis T) = t - T := by
  unfold sub32 millis
  omega

theorem sub32_millis_gt (t T d : Nat) (hle : T ≤ t) (h : d < sub32 (millis t) (millis T)) :
    T + d < t := by
  unfold sub32 millis at h
  omega

theorem runTouch_append (st : LoopState) (xs ys : List Tick) :
    runTouch st (xs ++ ys) = runTouch (runTouch st xs) ys := by
  induction xs generalizing st with
  | nil => rfl
  | cons a rest ih => simp [runTouch, ih]

theorem handleTouch_of_accepts (st : LoopState) (tk : Tick) (h : touchAccepts st tk = true) :
    (handleTouch st tk).1 =
      { st with counter := wrapInt32 (st.counter + 1), lastTouchTime := millis tk.time } := by
  simp only [touchAccepts, decide_eq_true_eq] at h
  simp [handleTouch, h]

theorem wrapInt32_succ_ne (c : Int) : wrapInt32 (c + 1) ≠ c := by
  unfold wrapInt32
  omega

theorem wrapInt32_succ_of_lt (c : Int) (hlo : -2147483648 ≤ c) (hhi : c < 2147483647) :
    wrapInt32 (c + 1) = c + 1 := by
  unfold wrapInt32
  omega

theorem wrapInt32_succ_le (c : Int) (hlo : -2147483648 ≤ c) : wrapInt32 (c + 1) ≤ c + 1 := by
  unfold wrapInt32
  omega

theorem handleTouch_of_not_accepts (st : LoopState) (tk : Tick)
    (h : touchAccepts st tk = false) : (handleTouch st tk).1 = st := by
  simp only [touchAccepts, decide_eq_false_iff_not] at h
  simp [handleTouch, h]

theorem runTouch_lastTouchTime_between (ticks : List Tick) (st : LoopState) (lo hi : Nat)
    (hst : ∃ T, lo ≤ T ∧ T ≤ hi ∧ st.lastTouchTime = millis T)
    (hticks : ∀ t ∈ ticks, lo ≤ t.time ∧ t.time ≤ hi) :
    ∃ T, lo ≤ T ∧ T ≤ hi ∧ (runTouch st ticks).lastTouchTime = millis T := by
  induction ticks generalizing st with
  | nil => exact hst
  | cons a rest ih =>
    simp only [runTouch]
    apply ih
    · cases hacc : touchAccepts st a with
      | true =>
        rw [handleTouch_of_accepts st a hacc]
        exact ⟨a.time, (hticks a (List.mem_cons_self _ _)).1,
          (hticks a (List.mem_cons_self _ _)).2, rfl⟩
      | false =>
        rw [handleTouch_of_not_accepts st a hacc]
        exact hst
    · intro t ht
      exact hticks t (List.mem_cons_of_mem _ ht)

theorem runTouch_quiet (ticks : List Tick) (st : LoopState) (T0 : Nat)
    (hst : st.lastTouchTime = millis T0)
    (hticks : ∀ t ∈ ticks, T0 ≤ t.time ∧ t.time ≤ T0 + 500) :
    runTouch st ticks = st := by
  induction ticks with
  | nil => rfl
  | cons a rest ih =>
    have ha := hticks a (List.mem_cons_self _ _)
    have hno : touchAccepts st a = false := by
      simp only [touchAccepts, decide_eq_false_iff_not, hst, debounceTime]
      rw [sub32_millis_le a.time T0 500 ha.1 ha.2 (by norm_num)]
      omega
    simp only [runTouch, handleTouch_of_not_accepts st a hno]
    exact ih (fun t ht => hticks t (List.mem_cons_of_mem _ ht))

theorem runTouch_window (ticks : List Tick) (st : LoopState)
    (hsorted : ticks.Pairwise (fun x y => x.time ≤ y.time))
    (hspan : ∀ x ∈ ticks, ∀ y ∈ ticks, y.time ≤ x.time + 500) :
    (runTouch st ticks).counter = st.counter ∨
      (runTouch st ticks).counter = wrapInt32 (st.counter + 1) := by
  induction ticks generalizing st with
  | nil => simp [runTouch]
  | cons a rest ih =>
    rw [List.pairwise_cons] at hsorted
    cases hacc : touchAccepts st a with
    | true =>
      simp only [runTouch, handleTouch_of_accepts st a hacc]
      rw [runTouch_quiet rest _ a.time rfl
        (fun t ht => ⟨hsorted.1 t ht,
          hspan a (List.mem_cons_self _ _) t (List.mem_cons_of_mem _ ht)⟩)]
      simp
    | false =>
      simp only [runTouch, handleTouch_of_not_accepts st a hacc]
      exact ih st hsorted.2
        (fun x hx y hy => hspan x (List.mem_cons_of_mem _ hx) y (List.mem_cons_of_mem _ hy))

/-- C5. A call of `handleTouch` changes `counter` exactly when it accepts the touch, and
then `counter` is incremented as a 32-bit `int`: to `counter + 1` below 2147483647, from
2147483647 to -2147483648. For every start state and every sequence of ticks with
non-decreasing real times (the code seeing each time modulo `2^32`) and arbitrary touch
readings, any two ticks at which `handleTouch` accepts are more than 500 ms apart in real
time; and over any run of ticks that spans at most 500 ms the counter is incremented at
most once, so that it increases by at most 1. -/
theorem handleTouch_debounce (st : LoopState) :
    (∀ (s : LoopState) (tk : Tick),
      ((handleTouch s tk).1.counter ≠ s.counter ↔ touchAccepts s tk = true) ∧
      (touchAccepts s tk = true →
        (handleTouch s tk).1.counter = wrapInt32 (s.counter + 1)) ∧
      (touchAccepts s tk = true → -2147483648 ≤ s.counter → s.counter < 2147483647 →
        (handleTouch s tk).1.counter = s.counter + 1)) ∧
    (∀ (before : List Tick) (a : Tick) (between : List Tick) (b : Tick),
      (before ++ a :: between ++ [b]).Pairwise (fun x y => x.time ≤ y.time) →
      touchAccepts (runTouch st before) a = true →
      touchAccepts (runTouch st (before ++ a :: between)) b = true →
      a.time + 500 < b.time) ∧
    (∀ (ticks : List Tick), ticks.Pairwise (fun x y => x.time ≤ y.time) →
      (∀ x ∈ ticks, ∀ y ∈ ticks, y.time ≤ x.time + 500) →
      ((runTouch st ticks).counter = st.counter ∨
        (runTouch st ticks).counter = wrapInt32 (st.counter + 1)) ∧
      (-2147483648 ≤ st.counter → (runTouch st ticks).counter ≤ st.counter + 1)) := by
  refine ⟨?_, ?_, ?_⟩
  · intro s tk
    cases hacc : touchAccepts s tk with
    | true =>
      rw [handleTouch_of_accepts s tk hacc]
      refine ⟨?_, fun _ => rfl, fun _ hlo hhi => wrapInt32_succ_of_lt s.counter hlo hhi⟩
      simp only [iff_true]
      exact wrapInt32_succ_ne s.counter
    | false =>
      rw [handleTouch_of_not_accepts s tk hacc]
      simp
  · intro before a between b hsorted ha hb
    have hs2 : (a :: (between ++ [b])).Pairwise (fun x y => x.time ≤ y.time) := by
      have h := hsorted
      rw [List.append_assoc, List.pairwise_append] at h
      simpa using h.2.1
    rw [List.pairwise_cons] at hs2
    have hab : a.time ≤ b.time := hs2.1 b (by simp)
    have hbetween : ∀ t ∈ between, a.time ≤ t.time ∧ t.time ≤ b.time := by
      intro t ht
      refine ⟨hs2.1 t (by simp [ht]), ?_⟩
      have h3 := hs2.2
      rw [List.pairwise_append] at h3
      exact h3.2.2 t ht b (by simp)
    have hstate : runTouch st (before ++ a :: between)
        = runTouch (handleTouch (runTouch st before) a).1 between := by
      rw [runTouch_append]; rfl
    rw [hstate, handleTouch_of_accepts _ a ha] at hb
    obtain ⟨T, hT1, hT2, hlast⟩ := runTouch_lastTouchTime_between between
      { runTouch st before with
        counter := wrapInt32 ((runTouch st before).counter + 1),
        lastTouchTime := millis a.time }
      a.time b.time ⟨a.time, le_refl _, hab, rfl⟩ hbetween
    simp only [touchAccepts, decide_eq_true_eq, hlast, debounceTime] at hb
    have := sub32_millis_gt b.time T 500 hT2 hb.2
    omega
  · intro ticks hsorted hspan
    have hw := runTouch_window ticks st hsorted hspan
    refine ⟨hw, fun hlo => ?_⟩
    have hle := wrapInt32_succ_le st.counter hlo
    rcases hw with h | h <;> rw [h] <;> omega

/-- Witness for C5: a touch is accepted at 1000 ms; a second touch 500 ms later is still
inside the debounce window and a third one at 1501 ms is accepted. -/
theorem handleTouch_debounce_witness :
    (1000 : Nat) + 500 < 1501 ∧
    (runTouch LoopState.boot [⟨1000, false, 10⟩, ⟨1500, false, 10⟩]).counter
      ≤ LoopState.boot.counter + 1 :=
  ⟨(handleTouch_debounce LoopState.boot).2.1 [] ⟨1000, false, 10⟩ [⟨1500, false, 10⟩]
      ⟨1501, false, 10⟩ (by decide) (by decide) (by decide),
   ((handleTouch_debounce LoopState.boot).2.2 [⟨1000, false, 10⟩, ⟨1500, false, 10⟩]
      (by decide) (by decide)).2 (by decide)⟩

/-! ## C6, C7: the reset hold -/

theorem handleTouch_buttonPressTime (st : LoopState) (tk : Tick) :
    (handleTouch st tk).1.buttonPressTime = st.buttonPressTime := by
  simp only [handleTouch]
  split_ifs <;> rfl

theorem handleTouch_effects (st : LoopState) (tk : Tick) :
    Effect.spiffsFormat ∉ (handleTouch st tk).2 ∧ Effect.espRestart ∉ (handleTouch st tk).2 := by
  simp only [handleTouch, sendCounter]
  split_ifs <;> simp

theorem loop_high (st : LoopState) (tk : Tick) (h : tk.resetLow = false) :
    ∃ s, (loop st tk).1 = some s ∧ s.buttonPressTime = 0 := by
  refine ⟨(handleTouch { st with buttonPressTime := 0 } tk).1, ?_, ?_⟩
  · simp [loop, h]
  · rw [handleTouch_buttonPressTime]

theorem loop_low (st : LoopState) (tk : Tick) (h : tk.resetLow = true) :
    ((loop st tk).1 = none ∧
      resetDelay < sub32 (millis tk.time)
        (if st.buttonPressTime = 0 then millis tk.time else st.buttonPressTime)) ∨
    (∃ s, (loop st tk).1 = some s ∧
      s.buttonPressTime = (if st.buttonPressTime = 0 then millis tk.time
        else st.buttonPressTime) ∧
      sub32 (millis tk.time)
        (if st.buttonPressTime = 0 then millis tk.time else st.buttonPressTime) ≤ resetDelay) := by
  by_cases hf : resetDelay < sub32 (millis tk.time)
      (if st.buttonPressTime = 0 then millis tk.time else st.buttonPressTime)
  · left
    refine ⟨?_, hf⟩
    simp only [loop, h, if_true]
    rw [if_pos hf]
  · right
    refine ⟨(handleTouch { st with buttonPressTime :=
      (if st.buttonPressTime = 0 then millis tk.time else st.buttonPressTime) } tk).1, ?_, ?_, ?_⟩
    · simp only [loop, h, if_true]
      rw [if_neg hf]
    · rw [handleTouch_buttonPressTime]
    · omega

theorem loop_effects (st : LoopState) (tk : Tick) :
    ((loop st tk).1 = none → (loop st tk).2 = [Effect.spiffsFormat, Effect.espRestart]) ∧
    ((loop st tk).1 ≠ none →
      Effect.spiffsFormat ∉ (loop st tk).2 ∧ Effect.espRestart ∉ (loop st tk).2) := by
  cases h : tk.resetLow with
  | false =>
    have he := handleTouch_effects { st with buttonPressTime := 0 } tk
    simp [loop, h, he.1, he.2]
  | true =>
    have he := handleTouch_effects { st with buttonPressTime :=
      (if st.buttonPressTime = 0 then millis tk.time else st.buttonPressTime) } tk
    by_cases hf : resetDelay < sub32 (millis tk.time)
        (if st.buttonPressTime = 0 then millis tk.time else st.buttonPressTime)
    · simp only [loop, h, if_true]
      rw [if_pos hf]
      simp
    · simp only [loop, h, if_true]
      rw [if_neg hf]
      simp [he.1, he.2]

theorem runLoop_cons_none (st : LoopState) (tk : Tick) (rest : List Tick)
    (h : (loop st tk).1 = none) :
    runLoop st (tk :: rest) = (none, (loop st tk).2) := by
  rcases hl : loop st tk with ⟨r, fx⟩
  rw [hl] at h
  simp only at h
  subst h
  simp [runLoop, hl]

theorem runLoop_cons_some (st s : LoopState) (tk : Tick) (rest : List Tick)
    (h : (loop st tk).1 = some s) :
    runLoop st (tk :: rest) = ((runLoop s rest).1, (loop st tk).2 ++ (runLoop s rest).2) := by
  rcases hl : loop st tk with ⟨r, fx⟩
  rw [hl] at h
  simp only at h
  subst h
  simp [runLoop, hl]

theorem runLoop_append_fst (xs ys : List Tick) (st : LoopState) :
    (runLoop st (xs ++ ys)).1 =
      match (runLoop st xs).1 with
      | none => none
      | some s => (runLoop s ys).1 := by
  induction xs generalizing st with
  | nil => simp [runLoop]
  | cons a rest ih =>
    cases hl : (loop st a).1 with
    | none => simp [List.cons_append, runLoop_cons_none _ _ _ hl]
    | some s => simp [List.cons_append, runLoop_cons_some _ _ _ _ hl, ih]

theorem runLoop_wipe_once (ticks : List Tick) (st : LoopState) :
    ((runLoop st ticks).1 = none →
      ∃ fx, (runLoop st ticks).2 = fx ++ [Effect.spiffsFormat, Effect.espRestart] ∧
        Effect.spiffsFormat ∉ fx ∧ Effect.espRestart ∉ fx) ∧
    ((runLoop st ticks).1 ≠ none →
      Effect.spiffsFormat ∉ (runLoop st ticks).2 ∧ Effect.espRestart ∉ (runLoop st ticks).2) := by
  induction ticks generalizing st with
  | nil => simp [runLoop]
  | cons a rest ih =>
    cases hl : (loop st a).1 with
    | none =>
      rw [runLoop_cons_none _ _ _ hl]
      refine ⟨fun _ => ⟨[], ?_, by simp, by simp⟩, fun h => absurd rfl h⟩
      simp [(loop_effects st a).1 hl]
    | some s =>
      rw [runLoop_cons_some _ _ _ _ hl]
      have hfx := (loop_effects st a).2 (by rw [hl]; simp)
      constructor
      · intro hnone
        obtain ⟨fx, hfx1, hfx2, hfx3⟩ := (ih s).1 hnone
        refine ⟨(loop st a).2 ++ fx, ?_, ?_, ?_⟩
        · simp [hfx1]
        · simp [hfx.1, hfx2]
        · simp [hfx.2, hfx3]
      · intro hsome
        have := (ih s).2 hsome
        simp [hfx.1, hfx.2, this.1, this.2]

theorem runLoop_held (middle : List Tick) (st : LoopState) (last : Tick)
    (hp : st.buttonPressTime ≠ 0)
    (hlow : ∀ t ∈ middle, t.resetLow = true) (hlast : last.resetLow = true)
    (hfire : resetDelay < sub32 (millis last.time) st.buttonPressTime) :
    (runLoop st (middle ++ [last])).1 = none := by
  induction middle generalizing st with
  | nil =>
    rcases loop_low st last hlast with ⟨h, _⟩ | ⟨s, _, _, h⟩
    · simp [runLoop_cons_none _ _ _ h]
    · rw [if_neg hp] at h
      omega
  | cons a rest ih =>
    rcases loop_low st a (hlow a (List.mem_cons_self _ _)) with ⟨h, _⟩ | ⟨s, hs, hb, _⟩
    · simp [List.cons_append, runLoop_cons_none _ _ _ h]
    · rw [if_neg hp] at hb
      simp only [List.cons_append, runLoop_cons_some _ _ _ _ hs]
      apply ih s (by rw [hb]; exact hp)
        (fun t ht => hlow t (List.mem_cons_of_mem _ ht))
      rw [hb]
      exact hfire

/-- C6 as stated fails. Reset held low at 1 ms and 10001 ms after boot (10000 ms apart,
the boundary): no wipe, since the code asks for more than 10000 ms. Reset held low at 0 ms
and 10001 ms: no wipe, since a press recorded at clock reading 0 counts as not recorded.
Reset held low at 1 ms and at 1 ms + 2^32: no wipe, since the 32-bit clock reads the
same at both ticks. -/
theorem reset_hold_counterexample :
    ((∀ t ∈ [(⟨1, true, 100⟩ : Tick), ⟨10001, true, 100⟩], t.resetLow = true) ∧
      (1 : Nat) + 10000 ≤ 10001 ∧
      (runLoop LoopState.boot [⟨1, true, 100⟩, ⟨10001, true, 100⟩]).1 ≠ none ∧
      Effect.spiffsFormat ∉ (runLoop LoopState.boot [⟨1, true, 100⟩, ⟨10001, true, 100⟩]).2) ∧
    ((runLoop LoopState.boot [⟨0, true, 100⟩, ⟨10001, true, 100⟩]).1 ≠ none ∧
      Effect.spiffsFormat ∉ (runLoop LoopState.boot [⟨0, true, 100⟩, ⟨10001, true, 100⟩]).2) ∧
    ((runLoop LoopState.boot [⟨1, true, 100⟩, ⟨4294967297, true, 100⟩]).1 ≠ none ∧
      Effect.spiffsFormat ∉
        (runLoop LoopState.boot [⟨1, true, 100⟩, ⟨4294967297, true, 100⟩]).2) := by
  decide

/-- C6, amended. For every start state and every sequence of loop ticks in which the reset
input is low at every tick, the last tick is more than 10000 ms after the first, the whole
sequence spans less than `2^32 - 10000` ms, and the clock does not read 0 at the first
tick when no press is recorded yet: the run ends in a restart, `SPIFFS.format()` and
`ESP.restart()` are called exactly once, in this order, as the last two effects. -/
theorem reset_hold_fires (st : LoopState) (first : Tick) (middle : List Tick) (last : Tick)
    (hlow : ∀ t ∈ first :: (middle ++ [last]), t.resetLow = true)
    (hzero : st.buttonPressTime = 0 → millis first.time ≠ 0)
    (hlong : first.time + 10000 < last.time)
    (hwrap : last.time + 10000 < first.time + 4294967296) :
    (runLoop st (first :: (middle ++ [last]))).1 = none ∧
    ∃ fx, (runLoop st (first :: (middle ++ [last]))).2
        = fx ++ [Effect.spiffsFormat, Effect.espRestart] ∧
      Effect.spiffsFormat ∉ fx ∧ Effect.espRestart ∉ fx := by
  have hnone : (runLoop st (first :: (middle ++ [last]))).1 = none := by
    rcases loop_low st first (hlow first (List.mem_cons_self _ _)) with ⟨h, _⟩ | ⟨s, hs, hb, hle⟩
    · simp [runLoop_cons_none _ _ _ h]
    · simp only [runLoop_cons_some _ _ _ _ hs]
      have hne : s.buttonPressTime ≠ 0 := by
        rw [hb]
        split_ifs with h0
        · exact hzero h0
        · exact h0
      apply runLoop_held middle s last hne
        (fun t ht => hlow t (List.mem_cons_of_mem _ (List.mem_append_left _ ht)))
        (hlow last (by simp))
      rw [hb]
      revert hle
      unfold sub32 millis resetDelay
      split_ifs <;> omega
  exact ⟨hnone, (runLoop_wipe_once _ st).1 hnone⟩

/-- Witness for C6: reset held low from 1 ms to 10002 ms after boot. -/
theorem reset_hold_fires_witness :
    (runLoop LoopState.boot [⟨1, true, 100⟩, ⟨5000, true, 100⟩, ⟨10002, true, 100⟩]).1 = none :=
  (reset_hold_fires LoopState.boot ⟨1, true, 100⟩ [⟨5000, true, 100⟩] ⟨10002, true, 100⟩
    (by decide) (by decide) (by decide) (by decide)).1

theorem runLoop_singleton_fst (st : LoopState) (tk : Tick) :
    (runLoop st [tk]).1 = (loop st tk).1 := by
  cases hl : (loop st tk).1 with
  | none => simp [runLoop_cons_none _ _ _ hl]
  | some s =>
    rw [runLoop_cons_some _ _ _ _ hl]
    simp [runLoop]

theorem runLoop_pressTime (ticks : List Tick) (st sc : LoopState)
    (h0 : st.buttonPressTime = 0) (hrun : (runLoop st ticks).1 = some sc) :
    sc.buttonPressTime = 0 ∨
    ∃ (before : List Tick) (p : Tick) (held : List Tick),
      ticks = before ++ p :: held ∧ p.resetLow = true ∧ (∀ t ∈ held, t.resetLow = true) ∧
      sc.buttonPressTime = millis p.time := by
  induction ticks using List.reverseRecOn generalizing sc with
  | nil =>
    simp only [runLoop, Option.some.injEq] at hrun
    subst hrun
    exact Or.inl h0
  | append_singleton init x ih =>
    rw [runLoop_append_fst] at hrun
    cases hinit : (runLoop st init).1 with
    | none => simp [hinit] at hrun
    | some s1 =>
      simp only [hinit, runLoop_singleton_fst] at hrun
      cases hx : x.resetLow with
      | false =>
        obtain ⟨s, hs, hb⟩ := loop_high s1 x hx
        rw [hs] at hrun
        simp only [Option.some.injEq] at hrun
        subst hrun
        exact Or.inl hb
      | true =>
        rcases loop_low s1 x hx with ⟨hn, _⟩ | ⟨s, hs, hb, _⟩
        · rw [hn] at hrun
          simp at hrun
        · rw [hs] at hrun
          simp only [Option.some.injEq] at hrun
          subst hrun
          right
          by_cases hz : s1.buttonPressTime = 0
          · rw [if_pos hz] at hb
            exact ⟨init, x, [], by simp, hx, by simp, hb⟩
          · rw [if_neg hz] at hb
            rcases ih s1 hinit with h1 | ⟨before, p, held, hsplit, hp, hheld, hpt⟩
            · exact absurd h1 hz
            · refine ⟨before, p, held ++ [x], by simp [hsplit], hp, ?_, by rw [hb, hpt]⟩
              intro t ht
              rcases List.mem_append.mp ht with h | h
              · exact hheld t h
              · simp only [List.mem_singleton] at h
                subst h
                exact hx

theorem loop_fires_imp (ticks : List Tick) (st sc : LoopState) (c : Tick)
    (h0 : st.buttonPressTime = 0)
    (hsorted : (ticks ++ [c]).Pairwise (fun x y => x.time ≤ y.time))
    (hrun : (runLoop st ticks).1 = some sc) (hfire : (loop sc c).1 = none) :
    ∃ (before : List Tick) (p : Tick) (held : List Tick),
      ticks = before ++ p :: held ∧ p.resetLow = true ∧ (∀ t ∈ held, t.resetLow = true) ∧
      c.resetLow = true ∧ p.time + 10000 < c.time := by
  have hc : c.resetLow = true := by
    cases hx : c.resetLow with
    | true => rfl
    | false =>
      obtain ⟨s, hs, _⟩ := loop_high sc c hx
      rw [hs] at hfire
      simp at hfire
  rcases loop_low sc c hc with ⟨_, hgt⟩ | ⟨s, hs, _, _⟩
  · rcases runLoop_pressTime ticks st sc h0 hrun with hz | ⟨before, p, held, hsplit, hp, hheld, hpt⟩
    · rw [if_pos hz] at hgt
      unfold sub32 millis resetDelay at hgt
      omega
    · refine ⟨before, p, held, hsplit, hp, hheld, hc, ?_⟩
      have hle : p.time ≤ c.time := by
        rw [hsplit, List.pairwise_append] at hsorted
        exact hsorted.2.2 p (by simp) c (by simp)
      rw [hpt] at hgt
      by_cases hz : millis p.time = 0
      · rw [if_pos hz] at hgt
        unfold sub32 millis resetDelay at hgt
        omega
      · rw [if_neg hz] at hgt
        exact sub32_millis_gt c.time p.time 10000 hle hgt
  · rw [hs] at hfire
    simp at hfire

/-- C7. In `loop`, a tick that samples the reset input high never restarts and leaves
`buttonPressTime` at 0. For ticks with non-decreasing real times, starting with no press
recorded: the wipe + restart fires at a tick only if the input is low at that tick and has
been low at every tick since a low tick more than 10000 ms earlier. From any start state:
if the input was high at a tick at most 10000 ms before the current tick, no wipe fires at
the current tick, whatever was held before that high tick. -/
theorem reset_hold_no_carry (st : LoopState) :
    (∀ (s : LoopState) (tk : Tick), tk.resetLow = false →
      ∃ s1, (loop s tk).1 = some s1 ∧ s1.buttonPressTime = 0) ∧
    (∀ (ticks : List Tick) (c : Tick) (sc : LoopState),
      st.buttonPressTime = 0 →
      (ticks ++ [c]).Pairwise (fun x y => x.time ≤ y.time) →
      (runLoop st ticks).1 = some sc → (loop sc c).1 = none →
      ∃ (before : List Tick) (p : Tick) (held : List Tick),
        ticks = before ++ p :: held ∧ p.resetLow = true ∧ (∀ t ∈ held, t.resetLow = true) ∧
        c.resetLow = true ∧ p.time + 10000 < c.time) ∧
    (∀ (before : List Tick) (h : Tick) (between : List Tick) (c : Tick) (sc : LoopState),
      (before ++ h :: between ++ [c]).Pairwise (fun x y => x.time ≤ y.time) →
      h.resetLow = false → c.time ≤ h.time + 10000 →
      (runLoop st (before ++ h :: between)).1 = some sc →
      (loop sc c).1 ≠ none ∧ Effect.spiffsFormat ∉ (loop sc c).2 ∧
        Effect.espRestart ∉ (loop sc c).2) := by
  refine ⟨fun s tk h => loop_high s tk h, ?_, ?_⟩
  · intro ticks c sc h0 hsorted hrun hfire
    exact loop_fires_imp ticks st sc c h0 hsorted hrun hfire
  · intro before h between c sc hsorted hh hrecent hrun
    have hne : (loop sc c).1 ≠ none := by
      intro hfire
      rw [runLoop_append_fst] at hrun
      cases hb : (runLoop st before).1 with
      | none => simp [hb] at hrun
      | some s0 =>
        simp only [hb] at hrun
        obtain ⟨s1, hs1, hz⟩ := loop_high s0 h hh
        rw [runLoop_cons_some _ _ _ _ hs1] at hrun
        simp only at hrun
        have hs2 : (h :: (between ++ [c])).Pairwise (fun x y => x.time ≤ y.time) := by
          have h2 := hsorted
          rw [List.append_assoc, List.pairwise_append] at h2
          simpa using h2.2.1
        rw [List.pairwise_cons] at hs2
        obtain ⟨_, p, held, hsplit, _, _, _, hlt⟩ :=
          loop_fires_imp between s1 sc c hz hs2.2 hrun hfire
        have hp : h.time ≤ p.time := hs2.1 p (by simp [hsplit])
        omega
    exact ⟨hne, (loop_effects sc c).2 hne⟩

/-- Witness for C7: the button is held for 9 s, released for one tick at 9500 ms and
pressed again; at 15000 ms the earlier hold does not count and nothing is wiped. -/
theorem reset_hold_no_carry_witness :
    (loop { buttonPressTime := 9600, counter := 0, lastTouchTime := 0 }
      ⟨15000, true, 100⟩).1 ≠ none :=
  ((reset_hold_no_carry LoopState.boot).2.2 [⟨500, true, 100⟩, ⟨9000, true, 100⟩]
    ⟨9500, false, 100⟩ [⟨9600, true, 100⟩] ⟨15000, true, 100⟩
    { buttonPressTime := 9600, counter := 0, lastTouchTime := 0 }
    (by decide) (by decide) (by decide) (by decide)).1

/-! ## C8: dispatch of WebSocket messages -/

/-- C8. `onWebSocketMessage` compares the whole text, case-sensitively: any message other
than `clear_measurements` and `clear_configuration` leaves the store as it is and sends
nothing. For `clear_measurements` the only reply is one text to the sending client, the
success text when `SPIFFS.remove("/log.txt")` returned true and the failure text
otherwise; afterwards `/log.txt` cannot be opened and every other file, the four config
files among them, is unchanged. -/
theorem onWebSocketMessage_dispatch (fs : FS) (client : Nat) :
    (∀ (message : String), message ≠ "clear_measurements" → message ≠ "clear_configuration" →
      onWebSocketMessage fs client message = (fs, [])) ∧
    ((SPIFFS_remove fs logFilePath).1 = true →
      (onWebSocketMessage fs client "clear_measurements").2
        = [Effect.clientText client "Måleværdier slettet."]) ∧
    ((SPIFFS_remove fs logFilePath).1 = false →
      (onWebSocketMessage fs client "clear_measurements").2
        = [Effect.clientText client "Kunne ikke slette måleværdier."]) ∧
    (onWebSocketMessage fs client "clear_measurements").1.fileExists logFilePath = false ∧
    (onWebSocketMessage fs client "clear_measurements").1.mounted = fs.mounted ∧
    (∀ (path : String), path ≠ logFilePath →
      (onWebSocketMessage fs client "clear_measurements").1.files path = fs.files path) := by
  refine ⟨?_, ?_, ?_, ?_, ?_, ?_⟩
  · intro message h1 h2
    simp [onWebSocketMessage, h1, h2]
  · intro h
    simp [onWebSocketMessage, h]
  · intro h
    simp [onWebSocketMessage, h]
  · cases hm : fs.mounted <;> cases hf : fs.files logFilePath <;>
      simp [onWebSocketMessage, SPIFFS_remove, FS.fileExists, hm, hf]
  · cases h : fs.fileExists logFilePath <;> simp [onWebSocketMessage, SPIFFS_remove, h]
  · intro path hpath
    cases h : fs.fileExists logFilePath <;>
      simp [onWebSocketMessage, SPIFFS_remove, h, hpath]

/-- Witness for C8: a case variant and a padded variant of the command are ignored, and
the command itself removes an existing log. -/
theorem onWebSocketMessage_dispatch_witness :
    onWebSocketMessage (FS.ofList [("/log.txt", "LED ON\r\n"), ("/ssid.txt", "Home")]) 7
        "Clear_measurements"
      = (FS.ofList [("/log.txt", "LED ON\r\n"), ("/ssid.txt", "Home")], []) ∧
    onWebSocketMessage (FS.ofList [("/log.txt", "LED ON\r\n"), ("/ssid.txt", "Home")]) 7
        "clear_measurements "
      = (FS.ofList [("/log.txt", "LED ON\r\n"), ("/ssid.txt", "Home")], []) ∧
    (onWebSocketMessage (FS.ofList [("/log.txt", "LED ON\r\n"), ("/ssid.txt", "Home")]) 7
        "clear_measurements").2 = [Effect.clientText 7 "Måleværdier slettet."] :=
  ⟨(onWebSocketMessage_dispatch _ 7).1 "Clear_measurements" (by decide) (by decide),
   (onWebSocketMessage_dispatch _ 7).1 "clear_measurements " (by decide) (by decide),
   (onWebSocketMessage_dispatch _ 7).2.1 (by decide)⟩

/-! ## C9: write then read -/

theorem takeWhile_ne_append (c : Char) (xs ys : List Char) (h : c ∉ xs) :
    (xs ++ c :: ys).takeWhile (fun x => x ≠ c) = xs := by
  induction xs with
  | nil => simp [List.takeWhile]
  | cons a rest ih =>
    simp only [List.mem_cons, not_or] at h
    have ha : decide (a ≠ c) = true := by
      simpa using fun e => h.1 e.symm
    rw [List.cons_append, List.takeWhile_cons, ha, ih h.2]
    rfl

theorem takeWhile_ne_self (c : Char) (xs : List Char) (h : c ∉ xs) :
    xs.takeWhile (fun x => x ≠ c) = xs := by
  induction xs with
  | nil => rfl
  | cons a rest ih =>
    simp only [List.mem_cons, not_or] at h
    have ha : decide (a ≠ c) = true := by
      simpa using fun e => h.1 e.symm
    rw [List.takeWhile_cons, ha, ih h.2]
    rfl

theorem readFile_of_content (fs : FS) (path content : String) (hm : fs.mounted = true)
    (hc : fs.files path = some content) :
    readFile fs path = readStringUntil content '\n' := by
  simp only [readFile, hm, if_true, hc]
  split_ifs with h
  · rfl
  · have : content.data = [] := by
      cases hd : content.data with
      | nil => rfl
      | cons a rest => simp [hd] at h
    simp [readStringUntil, this]

/-- C9. When `writeFile(path, s)` succeeds (the file could be opened for writing), a
following `readFile(path)` returns `s` itself if `s` has no newline, and the part of `s`
before its first newline if it has one; `readFile` on a path that names no file returns
the empty string. -/
theorem readFile_writeFile (fs : FS) (path s : String)
    (hok : (fs.openWriteAndPrint path s).isSome = true) :
    ('\n' ∉ s.data → readFile (writeFile fs path s) path = s) ∧
    (∀ (a b : String), s = a ++ "\n" ++ b → '\n' ∉ a.data →
      readFile (writeFile fs path s) path = a) ∧
    (∀ (fs2 : FS) (q : String), fs2.fileExists q = false → readFile fs2 q = "") := by
  have hm : fs.mounted = true := by
    cases h : fs.mounted with
    | true => rfl
    | false => simp [FS.openWriteAndPrint, h] at hok
  have hread : readFile (writeFile fs path s) path = readStringUntil s '\n' := by
    apply readFile_of_content
    · rw [writeFile_mounted]; exact hm
    · rw [writeFile_files _ _ _ _ hm]; simp
  refine ⟨?_, ?_, ?_⟩
  · intro hnl
    rw [hread]
    unfold readStringUntil
    rw [takeWhile_ne_self _ _ hnl]
  · intro a b hs hnl
    have hdata : (a ++ "\n" ++ b).data = a.data ++ '\n' :: b.data := by
      simp [String.data_append]
    rw [hread, hs]
    unfold readStringUntil
    rw [hdata, takeWhile_ne_append _ _ _ hnl]
  · intro fs2 q hq
    simp only [FS.fileExists, Bool.and_eq_false_imp] at hq
    unfold readFile
    cases hm2 : fs2.mounted with
    | false => simp
    | true =>
      have := hq hm2
      cases hf : fs2.files q with
      | none => simp
      | some c => simp [hf] at this

/-- Witness for C9: a value without newline, and a value with one. -/
theorem readFile_writeFile_witness :
    readFile (writeFile (FS.ofList []) "/ssid.txt" "Home") "/ssid.txt" = "Home" ∧
    readFile (writeFile (FS.ofList []) "/ssid.txt" ("Home" ++ "\n" ++ "x")) "/ssid.txt"
      = "Home" :=
  ⟨(readFile_writeFile (FS.ofList []) "/ssid.txt" "Home" (by decide)).1 (by decide),
   (readFile_writeFile (FS.ofList []) "/ssid.txt" ("Home" ++ "\n" ++ "x") (by decide)).2.1
      "Home" "x" rfl (by decide)⟩

/-! ## C10: `/on` and `/off` -/

theorem initWiFi_true_mounted (fs : FS) (pm t0 : Nat) (polls : List Poll)
    (h : (initWiFi (readFile fs ssidPath) (readFile fs passPath) (readFile fs ipPath)
      pm t0 polls).ret = some true) : fs.mounted = true := by
  cases hm : fs.mounted with
  | true => rfl
  | false => simp [initWiFi, readFile, hm] at h

theorem onWebSocketMessage_mounted (fs : FS) (client : Nat) (message : String) :
    (onWebSocketMessage fs client message).1.mounted = fs.mounted := by
  have hrem : ∀ (f : FS) (path : String), (SPIFFS_remove f path).2.mounted = f.mounted := by
    intro f path
    unfold SPIFFS_remove
    split_ifs <;> rfl
  have hand : ∀ (l : Bool × FS) (path : String), (andRemove l path).2.mounted = l.2.mounted := by
    intro l path
    unfold andRemove
    split_ifs
    · exact hrem l.2 path
    · rfl
  simp only [onWebSocketMessage]
  split_ifs <;> simp [hrem, hand]

/-- C10. The handlers of `/on` and `/off` exist only in operational mode, which `setup`
enters only when `initWiFi` succeeded on a profile read from the store, so that the store
is mounted; and every operation of that mode keeps it mounted. For every such device state
`/on` and `/off` are idempotent on the device: doing the action twice leaves the same pin
levels as doing it once, the LED pin high after `/on` and low after `/off` whatever it was,
all other pins and all files other than `/log.txt` untouched. Each invocation appends one
line (`LED ON` or `LED OFF`) to `/log.txt`, so that two invocations leave two lines,
broadcasts the same text to all peers and then renders `/index.html`. On a store that is
not mounted the handlers would leave the store as it was. -/
theorem led_handlers_idempotent (d : Device) :
    ((onHandler (onHandler d).1).1.pins = (onHandler d).1.pins ∧
      (onHandler d).1.pins ledPin = true ∧
      (∀ (pin : Nat), pin ≠ ledPin → (onHandler d).1.pins pin = d.pins pin) ∧
      (onHandler d).2 = [Effect.textAll "LED ON", Effect.sendTemplate "/index.html"] ∧
      (d.fs.mounted = true → (onHandler d).1.fs.files logFilePath
        = some ((d.fs.files logFilePath).getD "" ++ "LED ON" ++ "\r\n")) ∧
      (d.fs.mounted = false → (onHandler d).1.fs = d.fs) ∧
      (∀ (path : String), path ≠ logFilePath →
        (onHandler d).1.fs.files path = d.fs.files path) ∧
      (onHandler d).1.fs.mounted = d.fs.mounted ∧
      (d.fs.mounted = true → (onHandler (onHandler d).1).1.fs.files logFilePath
        = some (((d.fs.files logFilePath).getD "" ++ "LED ON" ++ "\r\n")
            ++ "LED ON" ++ "\r\n")) ∧
      (∀ (path : String), path ≠ logFilePath →
        (onHandler (onHandler d).1).1.fs.files path = (onHandler d).1.fs.files path) ∧
      (onHandler (onHandler d).1).2 = (onHandler d).2 ∧
      (onHandler (onHandler d).1).1.fs.mounted = (onHandler d).1.fs.mounted) ∧
    ((offHandler (offHandler d).1).1.pins = (offHandler d).1.pins ∧
      (offHandler d).1.pins ledPin = false ∧
      (∀ (pin : Nat), pin ≠ ledPin → (offHandler d).1.pins pin = d.pins pin) ∧
      (offHandler d).2 = [Effect.textAll "LED OFF", Effect.sendTemplate "/index.html"] ∧
      (d.fs.mounted = true → (offHandler d).1.fs.files logFilePath
        = some ((d.fs.files logFilePath).getD "" ++ "LED OFF" ++ "\r\n")) ∧
      (d.fs.mounted = false → (offHandler d).1.fs = d.fs) ∧
      (∀ (path : String), path ≠ logFilePath →
        (offHandler d).1.fs.files path = d.fs.files path) ∧
      (offHandler d).1.fs.mounted = d.fs.mounted ∧
      (d.fs.mounted = true → (offHandler (offHandler d).1).1.fs.files logFilePath
        = some (((d.fs.files logFilePath).getD "" ++ "LED OFF" ++ "\r\n")
            ++ "LED OFF" ++ "\r\n")) ∧
      (∀ (path : String), path ≠ logFilePath →
        (offHandler (offHandler d).1).1.fs.files path = (offHandler d).1.fs.files path) ∧
      (offHandler (offHandler d).1).2 = (offHandler d).2 ∧
      (offHandler (offHandler d).1).1.fs.mounted = (offHandler d).1.fs.mounted) ∧
    ((∀ (fs0 : FS) (pm t0 : Nat) (polls : List Poll),
        (initWiFi (readFile fs0 ssidPath) (readFile fs0 passPath) (readFile fs0 ipPath)
          pm t0 polls).ret = some true → fs0.mounted = true) ∧
      (∀ (client : Nat) (message : String),
        (onWebSocketMessage d.fs client message).1.mounted = d.fs.mounted)) := by
  refine ⟨⟨?_, ?_, ?_, ?_, ?_, ?_, ?_, ?_, ?_, ?_, ?_, ?_⟩,
    ⟨?_, ?_, ?_, ?_, ?_, ?_, ?_, ?_, ?_, ?_, ?_, ?_⟩,
    ⟨fun fs0 pm t0 polls h => initWiFi_true_mounted fs0 pm t0 polls h,
      fun client message => onWebSocketMessage_mounted d.fs client message⟩⟩
  · funext q
    simp [onHandler, digitalWrite]
  · simp [onHandler, digitalWrite]
  · intro pin hp
    simp [onHandler, digitalWrite, hp]
  · cases hm : d.fs.mounted <;>
      simp [onHandler, digitalWrite, logData, FS.openAppendAndPrintln, hm]
  · intro hm
    simp [onHandler, digitalWrite, logData, FS.openAppendAndPrintln, hm]
  · intro hm
    simp [onHandler, digitalWrite, logData, FS.openAppendAndPrintln, hm]
  · intro path hp
    cases hm : d.fs.mounted <;>
      simp [onHandler, digitalWrite, logData, FS.openAppendAndPrintln, hm, hp]
  · cases hm : d.fs.mounted <;>
      simp [onHandler, digitalWrite, logData, FS.openAppendAndPrintln, hm]
  · intro hm
    simp [onHandler, digitalWrite, logData, FS.openAppendAndPrintln, hm]
  · intro path hp
    cases hm : d.fs.mounted <;>
      simp [onHandler, digitalWrite, logData, FS.openAppendAndPrintln, hm, hp]
  · cases hm : d.fs.mounted <;>
      simp [onHandler, digitalWrite, logData, FS.openAppendAndPrintln, hm]
  · cases hm : d.fs.mounted <;>
      simp [onHandler, digitalWrite, logData, FS.openAppendAndPrintln, hm]
  · funext q
    simp [offHandler, digitalWrite]
  · simp [offHandler, digitalWrite]
  · intro pin hp
    simp [offHandler, digitalWrite, hp]
  · cases hm : d.fs.mounted <;>
      simp [offHandler, digitalWrite, logData, FS.openAppendAndPrintln, hm]
  · intro hm
    simp [offHandler, digitalWrite, logData, FS.openAppendAndPrintln, hm]
  · intro hm
    simp [offHandler, digitalWrite, logData, FS.openAppendAndPrintln, hm]
  · intro path hp
    cases hm : d.fs.mounted <;>
      simp [offHandler, digitalWrite, logData, FS.openAppendAndPrintln, hm, hp]
  · cases hm : d.fs.mounted <;>
      simp [offHandler, digitalWrite, logData, FS.openAppendAndPrintln, hm]
  · intro hm
    simp [offHandler, digitalWrite, logData, FS.openAppendAndPrintln, hm]
  · intro path hp
    cases hm : d.fs.mounted <;>
      simp [offHandler, digitalWrite, logData, FS.openAppendAndPrintln, hm, hp]
  · cases hm : d.fs.mounted <;>
      simp [offHandler, digitalWrite, logData, FS.openAppendAndPrintln, hm]
  · cases hm : d.fs.mounted <;>
      simp [offHandler, digitalWrite, logData, FS.openAppendAndPrintln, hm]

/-- Witness for C10: `/on` twice on a device whose LED is off and whose log is empty. -/
theorem led_handlers_idempotent_witness :
    (onHandler (onHandler ⟨fun _ => false, FS.ofList []⟩).1).1.pins
        = (onHandler ⟨fun _ => false, FS.ofList []⟩).1.pins ∧
    (onHandler ⟨fun _ => false, FS.ofList []⟩).1.fs.files logFilePath
        = some (((FS.ofList []).files logFilePath).getD "" ++ "LED ON" ++ "\r\n") :=
  ⟨(led_handlers_idempotent ⟨fun _ => false, FS.ofList []⟩).1.1,
   (led_handlers_idempotent ⟨fun _ => false, FS.ofList []⟩).1.2.2.2.2.1 rfl⟩

/-! ## C11: one step of `handleTouch` -/

/-- C11 as stated fails when `counter` stands at 2147483647, the largest 32-bit `int`: an
accepted touch (reading 39, 1501 ms, last touch at 1000 ms) does not make it
`counter + 1 = 2147483648` but -2147483648, and the message broadcast is
`counter:-2147483648`. -/
theorem handleTouch_int_max_counterexample :
    (39 : Nat) < 40 ∧
    500 < sub32 (millis 1501) 1000 ∧
    (handleTouch { buttonPressTime := 0, counter := 2147483647, lastTouchTime := 1000 }
      ⟨1501, false, 39⟩).1.counter = -2147483648 ∧
    (handleTouch { buttonPressTime := 0, counter := 2147483647, lastTouchTime := 1000 }
      ⟨1501, false, 39⟩).1.counter ≠ 2147483647 + 1 ∧
    (handleTouch { buttonPressTime := 0, counter := 2147483647, lastTouchTime := 1000 }
      ⟨1501, false, 39⟩).2 = [Effect.textAll "counter:-2147483648"] := by
  decide

/-- C11, amended. One call of `handleTouch` with reading `r`, clock reading `now` and
globals `counter`, `lastTouchTime`. The code's `now - lastTouchTime` is the difference
modulo `2^32`. If `r < 40` and that difference is over 500, `counter` is incremented as a
32-bit `int` (it becomes `counter + 1` when it is below 2147483647, and -2147483648 when it
is 2147483647), `lastTouchTime` becomes `now`, and exactly one message, `counter:` followed
by the decimal of the new counter, is broadcast to all peers. Otherwise (`r >= 40`, the
value 40 itself included, or a difference of at most 500) the globals are unchanged and
nothing is broadcast. `buttonPressTime` is never touched. -/
theorem handleTouch_step (st : LoopState) (tk : Tick) :
    (st.lastTouchTime < 4294967296 →
      ((sub32 (millis tk.time) st.lastTouchTime : Nat) : Int)
        = ((millis tk.time : Int) - (st.lastTouchTime : Int)) % 4294967296) ∧
    (tk.touch < 40 → 500 < sub32 (millis tk.time) st.lastTouchTime →
      (handleTouch st tk).1.counter = wrapInt32 (st.counter + 1) ∧
      (handleTouch st tk).1.lastTouchTime = millis tk.time ∧
      (handleTouch st tk).1.buttonPressTime = st.buttonPressTime ∧
      (handleTouch st tk).2
        = [Effect.textAll ("counter:" ++ toString (handleTouch st tk).1.counter)]) ∧
    (tk.touch < 40 → 500 < sub32 (millis tk.time) st.lastTouchTime →
      -2147483648 ≤ st.counter → st.counter < 2147483647 →
      (handleTouch st tk).1.counter = st.counter + 1 ∧
      (handleTouch st tk).2 = [Effect.textAll ("counter:" ++ toString (st.counter + 1))]) ∧
    (tk.touch < 40 → 500 < sub32 (millis tk.time) st.lastTouchTime →
      st.counter = 2147483647 →
      (handleTouch st tk).1.counter = -2147483648 ∧
      (handleTouch st tk).2 = [Effect.textAll "counter:-2147483648"]) ∧
    ((40 ≤ tk.touch ∨ sub32 (millis tk.time) st.lastTouchTime ≤ 500) →
      handleTouch st tk = (st, [])) := by
  have hacc : tk.touch < 40 → 500 < sub32 (millis tk.time) st.lastTouchTime →
      handleTouch st tk =
        ({ st with counter := wrapInt32 (st.counter + 1), lastTouchTime := millis tk.time },
          [Effect.textAll ("counter:" ++ toString (wrapInt32 (st.counter + 1)))]) := by
    intro hr hd
    have hcond : tk.touch < 40 ∧ sub32 (millis tk.time) st.lastTouchTime > debounceTime :=
      ⟨hr, hd⟩
    simp only [handleTouch, hcond, and_self, if_true, sendCounter]
  refine ⟨?_, ?_, ?_, ?_, ?_⟩
  · intro hlt
    unfold sub32 millis
    omega
  · intro hr hd
    rw [hacc hr hd]
    exact ⟨rfl, rfl, rfl, rfl⟩
  · intro hr hd hlo hhi
    rw [hacc hr hd, wrapInt32_succ_of_lt st.counter hlo hhi]
    exact ⟨rfl, rfl⟩
  · intro hr hd hmax
    have hwrap : wrapInt32 (2147483647 + 1) = -2147483648 := by decide
    have hmsg : "counter:" ++ toString (-2147483648 : Int) = "counter:-2147483648" := by
      decide
    rw [hacc hr hd, hmax, hwrap, hmsg]
    exact ⟨rfl, rfl⟩
  · intro h
    have hcond : ¬ (tk.touch < 40 ∧ sub32 (millis tk.time) st.lastTouchTime > debounceTime) := by
      unfold debounceTime
      omega
    simp only [handleTouch, hcond, if_false]

/-- Witness for C11: the counter stands at 41 and the last touch was at 1000 ms. A reading
of 39 at 1501 ms is accepted and `counter:42` is broadcast; a reading of 40 at 1501 ms and
a reading of 39 at 1500 ms change nothing. -/
theorem handleTouch_step_witness :
    (handleTouch { buttonPressTime := 0, counter := 41, lastTouchTime := 1000 }
      ⟨1501, false, 39⟩).1.counter = 41 + 1 ∧
    (handleTouch { buttonPressTime := 0, counter := 41, lastTouchTime := 1000 }
      ⟨1501, false, 39⟩).2 = [Effect.textAll "counter:42"] ∧
    handleTouch { buttonPressTime := 0, counter := 41, lastTouchTime := 1000 } ⟨1501, false, 40⟩
      = ({ buttonPressTime := 0, counter := 41, lastTouchTime := 1000 }, []) ∧
    handleTouch { buttonPressTime := 0, counter := 41, lastTouchTime := 1000 } ⟨1500, false, 39⟩
      = ({ buttonPressTime := 0, counter := 41, lastTouchTime := 1000 }, []) :=
  ⟨((handleTouch_step { buttonPressTime := 0, counter := 41, lastTouchTime := 1000 }
      ⟨1501, false, 39⟩).2.2.1 (by decide) (by decide) (by decide) (by decide)).1,
   ((handleTouch_step { buttonPressTime := 0, counter := 41, lastTouchTime := 1000 }
      ⟨1501, false, 39⟩).2.2.1 (by decide) (by decide) (by decide) (by decide)).2.trans
      (by decide),
   (handleTouch_step { buttonPressTime := 0, counter := 41, lastTouchTime := 1000 }
      ⟨1501, false, 40⟩).2.2.2.2 (Or.inl (by decide)),
   (handleTouch_step { buttonPressTime := 0, counter := 41, lastTouchTime := 1000 }
      ⟨1500, false, 39⟩).2.2.2.2 (Or.inr (by decide))⟩

end EnergiMeasurer
